import Mathlib

/-!
Verification of the Kismesis parsing front-end (`src/compiler/parser.rs` and
`src/compiler/parser/errors.rs`): a shallow embedding of the parser-combinator
engine, the error model, and the grammar rules, together with theorems about
the behaviours claimed in the specification.

The token type, cursor (`ParserState`) and AST value types live in modules of
the repository that are not part of the provided sources (`lexer`,
`parser/state.rs`, `parser/types.rs`); those are modelled from the spec, as
marked on each definition.  Everything else is a direct translation of the
Rust source.  Recursive grammar rules take an explicit fuel argument for
termination; running out of fuel yields a `Failure` carrying the otherwise
unused `ReachedEOF` error kind, a situation no terminating source execution
reaches.
-/

namespace Kismesis

/-- Modelled from the spec: tokens are produced by the external lexer; the
variants are Word(text), Symbol(char), Space(char), Indent(char),
Newline(char) (spec section 3). -/
inductive Token where
  | Word : String → Token
  | Symbol : Char → Token
  | Space : Char → Token
  | Indent : Char → Token
  | Newline : Char → Token
deriving DecidableEq, Repr

/-- Modelled from the spec: a token's literal text. -/
def Token.get_as_string : Token → String
  | .Word s => s
  | .Symbol c => c.toString
  | .Space c => c.toString
  | .Indent c => c.toString
  | .Newline c => c.toString

/-- Modelled from the spec: append a token's text to an accumulating string
(`push_to_string` mutates in Rust; here it returns the extended string). -/
def Token.push_to_string (t : Token) (s : String) : String :=
  s ++ t.get_as_string

/-- Modelled from the spec: a position counted in logical units — line,
column within the line, and global token index (spec section 3,
"TokenPos"). -/
structure TokenPos where
  line : Nat
  column : Nat
  idx : Nat
deriving DecidableEq, Repr

/-- Modelled from the spec: consuming a token advances the global index and
either the column or (for a newline token) the line. -/
def TokenPos.advance (p : TokenPos) (t : Token) : TokenPos :=
  match t with
  | .Newline _ => ⟨p.line + 1, 0, p.idx + 1⟩
  | _ => ⟨p.line, p.column + 1, p.idx + 1⟩

/-- The error kinds of `parser/errors.rs` (`enum Error`; named `ParseError`
in `parser.rs`).  The final four variants are constructed by `parser.rs`
though absent from the provided `errors.rs`. -/
inductive ParseError where
  | ExpectedMacroMark
  | ExpectedPluginMark
  | ExpectedUniFunc
  | ExpectedBinFunc
  | ExpectedVarName
  | ExpectedTagNameOrMacroDef
  | ExpectedBodyOpener
  | ExpectedTagName
  | ExpectedTagCloser
  | ExpectedVarCaller
  | ExpectedTagOpener
  | NewlineInQuote
  | NotANewline
  | NotLiteral
  | UnexpectedMacroDef
  | UnendingZero
  | EmptyString
  | NotSymbol
  | NotMacroStart
  | CharacterNotMatch (expected : Char) (got : Option Char)
  | NotQuoteMark
  | ExpectedQuoteStart
  | NotASpace
  | NotAnIndent
  | EndlessName
  | UnclosedQuote
  | InvalidSymbolsInParamName
  | InvalidSymbolsInTagName
  | EmptyName
  | ExpectedValue
  | ReachedEOF
  | EndlessString
  | LiteralNotMatch (expected : String) (got : Option String)
  | ExpectedExprStart
  | ExpectedExprEnd
  | ExpectedEquals
deriving DecidableEq, Repr

/-- `ErrorState` of `parser/errors.rs`: an error kind, the chain of
previously rejected alternatives, and the start/end positions. -/
inductive ErrorState (T : Type) : Type where
  | mk (error : T) (previous_errors : List (ErrorState T))
      (start_position : TokenPos) (end_position : TokenPos) : ErrorState T

/-- `Err` of `parser/errors.rs`: recoverable `Error` vs committed
`Failure`. -/
inductive Err where
  | Error : ErrorState ParseError → Err
  | Failure : ErrorState ParseError → Err

/-- `Err::unpack`. -/
def Err.unpack : Err → ErrorState ParseError
  | .Error x => x
  | .Failure x => x

/-- `Err::cut` of `parser/errors.rs`: promote `Error` to `Failure`, leave
`Failure` untouched. -/
def Err.cut : Err → Err
  | .Error x => Err.Failure x
  | x => x

/-- Modelled from the spec: the cursor (`ParserState` of `parser/state.rs`) —
the remaining token slice, the current position, and the errors encountered
so far at this path (spec sections 3 and 4.1). -/
structure ParserState where
  tokens : List Token
  position : TokenPos
  errors : List (ErrorState ParseError)

/-- Modelled from the spec: `advance()` yields the optional next token and
the new cursor; consuming past the end yields "no token" and leaves the
cursor unchanged (spec section 4.1). -/
def ParserState.advanced (st : ParserState) : Option Token × ParserState :=
  match st.tokens with
  | [] => (none, st)
  | t :: rest => (some t, ⟨rest, st.position.advance t, st.errors⟩)

/-- Modelled from the spec: `first_token()` peeks without consuming. -/
def ParserState.first_token (st : ParserState) : Option Token :=
  st.tokens.head?

/-- Modelled from the spec: the cursor after one consumption. -/
def ParserState.next_state (st : ParserState) : ParserState :=
  st.advanced.2

/-- Modelled from the spec: the initial cursor over a token sequence, at
position zero with no accumulated errors. -/
def ParserState.new (ts : List Token) : ParserState :=
  ⟨ts, ⟨0, 0, 0⟩, []⟩

/-- `Error::state_at` of `parser/errors.rs`: wrap an error kind as a
recoverable `Err::Error` at the state's position, carrying the state's
accumulated errors. -/
def ParseError.state_at (e : ParseError) (st : ParserState) : Err :=
  Err.Error (.mk e st.errors st.position st.position)

/-- `ParserResult<'a, T>` of `parser.rs`. -/
abbrev ParserResult (T : Type) : Type := Except Err (T × ParserState)

/-- A parser, as in `parser.rs`: any function from a cursor to a value plus
new cursor, or an error. -/
abbrev Parser (T : Type) : Type := ParserState → ParserResult T

/-- The out-of-fuel sentinel for the fuel-indexed recursive grammar rules;
uses the error kind `ReachedEOF`, which the source never constructs. -/
def outOfFuel {T : Type} (st : ParserState) : ParserResult T :=
  .error (Err.Failure (.mk .ReachedEOF st.errors st.position st.position))

/-- `map` of `parser.rs`: transform the produced value, preserve cursor and
error as-is. -/
def map {T1 T2 : Type} (p : Parser T1) (f : T1 → T2) : Parser T2 :=
  fun st =>
    match p st with
    | .ok (v, ns) => .ok (f v, ns)
    | .error e => .error e

/-- `or` of `parser.rs`: try the first parser; propagate a `Failure`
untouched; on an `Error` try the second parser from the original cursor. -/
def or {T : Type} (p1 p2 : Parser T) : Parser T :=
  fun st =>
    match p1 st with
    | .ok r => .ok r
    | .error (Err.Failure x) => .error (Err.Failure x)
    | .error (Err.Error _) => p2 st

/-- `preceding` of `parser.rs`: sequence keeping only the second value. -/
def preceding {O1 O2 : Type} (p1 : Parser O1) (p2 : Parser O2) : Parser O2 :=
  fun st =>
    match p1 st with
    | .ok (_, ns) => p2 ns
    | .error e => .error e

/-- `followed_by` of `parser.rs`: sequence keeping only the first value. -/
def followed_by {O1 O2 : Type} (p1 : Parser O1) (p2 : Parser O2) : Parser O1 :=
  fun st =>
    match p1 st with
    | .ok (r, ns) =>
      match p2 ns with
      | .ok (_, ns2) => .ok (r, ns2)
      | .error e => .error e
    | .error e => .error e

/-- `and_also` of `parser.rs`: sequence returning both values. -/
def and_also {O1 O2 : Type} (p1 : Parser O1) (p2 : Parser O2) : Parser (O1 × O2) :=
  fun st =>
    match p1 st with
    | .ok (r1, ns) =>
      match p2 ns with
      | .ok (r2, ns2) => .ok ((r1, r2), ns2)
      | .error e => .error e
    | .error e => .error e

/-- `and_maybe` of `parser.rs`: optional tail — a recoverable `Error` from
the second parser means "absent", a `Failure` aborts. -/
def and_maybe {O1 O2 : Type} (p1 : Parser O1) (p2 : Parser O2) : Parser (O1 × Option O2) :=
  fun st =>
    match p1 st with
    | .ok (r1, ns) =>
      match p2 ns with
      | .ok (r2, ns2) => .ok ((r1, some r2), ns2)
      | .error (Err.Error _) => .ok ((r1, none), ns)
      | .error x => .error x
    | .error e => .error e

/-- `cut` of `parser.rs`: re-wrap a recoverable `Error` as a `Failure`;
leave success and `Failure` untouched. -/
def cut {T : Type} (p : Parser T) : Parser T :=
  fun st =>
    match p st with
    | .error (Err.Error x) => .error (Err.Failure x)
    | r => r

/-- `peek` of `parser.rs`: run the parser, discard its cursor advancement. -/
def peek {T : Type} (p : Parser T) : Parser T :=
  fun st =>
    match p st with
    | .ok (v, _) => .ok (v, st)
    | .error e => .error e

/-- `get_range` of `parser.rs` wraps a value with its source extent. -/
structure Ranged (T : Type) where
  value : T
  range : TokenPos × TokenPos

/-- `get_range` of `parser.rs`: record the start/end cursor positions around
a parser, wrapping its value in `Ranged`. -/
def get_range {T : Type} (p : Parser T) : Parser (Ranged T) :=
  fun st =>
    match p st with
    | .ok (v, ns) => .ok (⟨v, (st.position, ns.position)⟩, ns)
    | .error e => .error e

/-- The loop of `zero_or_more`, with fuel (the Rust loop runs until the
inner parser fails; every grammar use consumes at least one token per
success, so fuel `tokens.length + 1` is never exhausted). -/
def zomAux {T : Type} (p : Parser T) : Nat → ParserState → ParserResult (List T)
  | 0, st => .ok ([], st)
  | fuel + 1, st =>
    match p st with
    | .ok (v, ns) =>
      match zomAux p fuel ns with
      | .ok (vs, ns2) => .ok (v :: vs, ns2)
      | .error e => .error e
    | .error (Err.Failure x) => .error (Err.Failure x)
    | .error (Err.Error _) => .ok ([], st)

/-- `zero_or_more` of `parser.rs`: collect successes in order; stop without
consuming on the first `Error`; propagate an inner `Failure` immediately. -/
def zero_or_more {T : Type} (p : Parser T) : Parser (List T) :=
  fun st => zomAux p (st.tokens.length + 1) st

/-- `some_symbol` of `parser.rs`. -/
def some_symbol : Parser Char :=
  fun st =>
    match st.advanced with
    | (some (Token.Symbol x), ns) => .ok (x, ns)
    | _ => .error (ParseError.state_at .NotSymbol st)

/-- `literal` of `parser.rs`. -/
def literal : Parser String :=
  fun st =>
    match st.advanced with
    | (some (Token.Word x), ns) => .ok (x, ns)
    | _ => .error (ParseError.state_at .NotLiteral st)

/-- `space` of `parser.rs` (note: the mismatch error is reported at the
advanced state, as in the source). -/
def space : Parser Char :=
  fun st =>
    match st.advanced with
    | (some (Token.Space c), ns) => .ok (c, ns)
    | (_, ns) => .error (ParseError.state_at .NotASpace ns)

/-- `indent` of `parser.rs`. -/
def indent : Parser Char :=
  fun st =>
    match st.advanced with
    | (some (Token.Indent c), ns) => .ok (c, ns)
    | (_, ns) => .error (ParseError.state_at .NotAnIndent ns)

/-- `newline` of `parser.rs`. -/
def newline : Parser Char :=
  fun st =>
    match st.advanced with
    | (some (Token.Newline c), ns) => .ok (c, ns)
    | (_, ns) => .error (ParseError.state_at .NotANewline ns)

/-- `character` of `parser.rs`: a specific symbol token. -/
def character (chr : Char) : Parser Char :=
  fun st =>
    match some_symbol st with
    | .ok (x, ns) =>
      if x = chr then .ok (x, ns)
      else .error (ParseError.state_at (.CharacterNotMatch chr (some x)) st)
    | .error e => .error e

/-- `specific_literal` of `parser.rs`: a specific word token. -/
def specific_literal (word : String) : Parser String :=
  fun st =>
    match literal st with
    | .ok (x, ns) =>
      if x = word then .ok (x, ns)
      else .error (ParseError.state_at (.LiteralNotMatch word (some x)) st)
    | .error e => .error e

/-- `quote_mark` of `parser.rs`. -/
def quote_mark : Parser Char :=
  fun st =>
    match or (character '\'') (character '"') st with
    | .error _ => .error (ParseError.state_at .NotQuoteMark st)
    | ok => ok

/-- `tag_opener` of `parser.rs`. -/
def tag_opener : Parser Char :=
  fun st =>
    match character '<' st with
    | .error _ => .error (ParseError.state_at .ExpectedTagOpener st)
    | ok => ok

/-- `subtag_opener` of `parser.rs` (the source reuses the
`ExpectedTagOpener` error kind). -/
def subtag_opener : Parser Char :=
  fun st =>
    match character '+' st with
    | .error _ => .error (ParseError.state_at .ExpectedTagOpener st)
    | ok => ok

/-- `tag_closer` of `parser.rs`. -/
def tag_closer : Parser Char :=
  fun st =>
    match character '>' st with
    | .error _ => .error (ParseError.state_at .ExpectedTagCloser st)
    | ok => ok

/-- `expr_opener` of `parser.rs`. -/
def expr_opener : Parser Char :=
  fun st =>
    match character '{' st with
    | .error _ => .error (ParseError.state_at .ExpectedExprStart st)
    | ok => ok

/-- `expr_closer` of `parser.rs`. -/
def expr_closer : Parser Char :=
  fun st =>
    match character '}' st with
    | .error _ => .error (ParseError.state_at .ExpectedExprEnd st)
    | ok => ok

/-- `macro_mark` of `parser.rs`. -/
def macro_mark : Parser Char :=
  fun st =>
    match character '!' st with
    | .error _ => .error (ParseError.state_at .ExpectedMacroMark st)
    | ok => ok

/-- `plugin_mark` of `parser.rs`. -/
def plugin_mark : Parser Char :=
  fun st =>
    match character '?' st with
    | .error _ => .error (ParseError.state_at .ExpectedPluginMark st)
    | ok => ok

/-- `body_opener` of `parser.rs`: `|` or a newline. -/
def body_opener : Parser Char :=
  fun st =>
    match or (character '|') newline st with
    | .error _ => .error (ParseError.state_at .ExpectedBodyOpener st)
    | ok => ok

/-- `macro_name` of `parser.rs`: any word except `content`. -/
def macro_name : Parser String :=
  fun st =>
    match literal st with
    | .ok (s, ns) =>
      if s = ("content") then .error (ParseError.state_at .ExpectedTagName st)
      else .ok (s, ns)
    | _ => .error (ParseError.state_at .ExpectedTagName st)

/-- `equals` of `parser.rs`. -/
def equals : Parser Char :=
  fun st =>
    match character '=' st with
    | .error _ => .error (ParseError.state_at .ExpectedEquals st)
    | ok => ok

/-- `variable_name` of `parser.rs`. -/
def variable_name : Parser String :=
  fun st =>
    match literal st with
    | .ok r => .ok r
    | .error _ => .error (ParseError.state_at .ExpectedVarName st)

/-- `non_macro_starter` of `parser.rs`: any word except `macro`. -/
def non_macro_starter : Parser String :=
  fun st =>
    match st.advanced with
    | (some (Token.Word x), ns) =>
      if x = ("macro") then .error (ParseError.state_at .UnexpectedMacroDef st)
      else .ok (x, ns)
    | _ => .error (ParseError.state_at .ExpectedTagName st)

/-- `var_def_starter` of `parser.rs`: the keyword `let`. -/
def var_def_starter : Parser String :=
  fun st =>
    match st.advanced with
    | (some (Token.Word x), ns) =>
      if x = ("let") then .ok (x, ns)
      else .error (ParseError.state_at .NotLiteral st)
    | _ => .error (ParseError.state_at .NotLiteral st)

/-- `lambda_def_starter` of `parser.rs`: the keyword `lambda`. -/
def lambda_def_starter : Parser String :=
  fun st =>
    match st.advanced with
    | (some (Token.Word x), ns) =>
      if x = ("lambda") then .ok (x, ns)
      else .error (ParseError.state_at .NotLiteral st)
    | _ => .error (ParseError.state_at .NotLiteral st)

/-- `macro_starter` of `parser.rs`: the keyword `macro`. -/
def macro_starter : Parser String :=
  fun st =>
    match st.advanced with
    | (some (Token.Word x), ns) =>
      if x = ("macro") then .ok (x, ns)
      else .error (ParseError.state_at .ExpectedTagNameOrMacroDef st)
    | _ => .error (ParseError.state_at .NotMacroStart st)

/-- `skip_spaces` of `parser.rs`. -/
def skip_spaces : Parser (List Char) :=
  zero_or_more (or space indent)

/-- `after_spaces` of `parser.rs`. -/
def after_spaces {T : Type} (p : Parser T) : Parser T :=
  preceding skip_spaces p

/-- `skipped_blanks` of `parser.rs`. -/
def skipped_blanks : Parser (List Char) :=
  zero_or_more (or (or space indent) newline)

/-- `skip_newline_blanks` of `parser.rs`. -/
def skip_newline_blanks : Parser (List Char) :=
  zero_or_more (preceding skip_spaces newline)

/-- Modelled from the spec: binary function names (`a and b`, `a or b`). -/
inductive BinFunc where
  | And
  | Or
deriving DecidableEq, Repr

/-- Modelled from the spec: unary function names (`not a`). -/
inductive UniFunc where
  | Not
deriving DecidableEq, Repr

mutual

/-- Modelled from the spec: expressions — a variable reference, an
interpolated-string literal, a binary or unary function application over
ranged sub-expressions, or the `!` "no value" sentinel (spec section 3;
`parser/types.rs` is not among the provided sources). -/
inductive Expression where
  | Variable (name : String)
  | Literal (parts : List StringParts)
  | BinFunc (op : BinFunc) (lhs : Ranged Expression) (rhs : Ranged Expression)
  | UniFunc (op : UniFunc) (operand : Ranged Expression)
  | None

/-- Modelled from the spec: an ordered sequence of alternating literal text
segments and embedded ranged expressions. -/
inductive StringParts where
  | String (s : String)
  | Expression (e : Ranged Expression)

end

/-- Modelled from the spec: an attribute — ranged name plus string-parts
value. -/
structure Attribute where
  name : Ranged String
  value : List StringParts

/-- Modelled from the spec: a macro/plugin call argument — ranged name plus
optional string-parts value. -/
structure Argument where
  name : Ranged String
  value : Option (List StringParts)

mutual

/-- Modelled from the spec: an HTML tag — ranged name, attributes, unmerged
`+name` subtags, and body nodes. -/
inductive HtmlTag where
  | mk (name : Ranged String) (attributes : List Attribute)
      (subtags : List HtmlTag) (body : List HtmlNodes)

/-- Modelled from the spec: the nodes of a tag body — nested tags, macro
calls, free text, and the content marker (from the body grammar's uses). -/
inductive HtmlNodes where
  | HtmlTag (t : HtmlTag)
  | MacroCall (m : Macro)
  | String (s : List StringParts)
  | Content

/-- Modelled from the spec: a macro — used both for definitions (body
present) and calls (body empty at parse time). -/
inductive Macro where
  | mk (name : Ranged String) (arguments : List Argument) (body : List HtmlNodes)

end

/-- The tag name of an `HtmlTag`. -/
def HtmlTag.name : HtmlTag → Ranged String
  | .mk n _ _ _ => n

/-- The name of a `Macro`. -/
def Macro.name : Macro → Ranged String
  | .mk n _ _ => n

/-- The arguments of a `Macro`. -/
def Macro.arguments : Macro → List Argument
  | .mk _ a _ => a

/-- Modelled from the spec: a plugin call — ranged name, raw argument token
span, optional raw body token span. -/
structure PlugCall where
  name : Ranged String
  arguments : Ranged (List Token)
  body : Option (Ranged (List Token))

/-- Modelled from the spec: a variable definition (value mandatory). -/
structure Variable where
  name : String
  value : List StringParts

/-- Modelled from the spec: a lambda definition (value optional). -/
structure Lambda where
  name : String
  value : Option (List StringParts)

/-- Modelled from the spec: the top-level tag union produced by
`some_tag`. -/
inductive Tag where
  | HtmlTag (t : HtmlTag)
  | MacroCall (m : Macro)
  | MacroDef (m : Macro)
  | PlugCall (p : PlugCall)
  | Content

/-- Modelled from the spec: the tag union produced by `some_child_tag`. -/
inductive BodyTags where
  | HtmlTag (t : HtmlTag)
  | MacroCall (m : Macro)
  | Content

/-- Modelled from the spec: the `From<BodyTags>` conversion used by
`tag_body` (`x.into()`). -/
def BodyTags.into : BodyTags → HtmlNodes
  | .HtmlTag t => HtmlNodes.HtmlTag t
  | .MacroCall m => HtmlNodes.MacroCall m
  | .Content => HtmlNodes.Content

/-- Modelled from the spec: top-level parsed nodes before bucketing in
`file` (from the match arms of `file`). -/
inductive BodyNodes where
  | HtmlTag (t : HtmlTag)
  | MacroDef (m : Macro)
  | MacroCall (m : Macro)
  | String (s : List StringParts)
  | LambdaDef (l : Lambda)
  | VarDef (v : Variable)
  | PlugCall (p : PlugCall)
  | Content

/-- Modelled from the spec: the `From<Tag>` conversion used by `file`
(`x.into()`). -/
def Tag.into : Tag → BodyNodes
  | .HtmlTag t => BodyNodes.HtmlTag t
  | .MacroCall m => BodyNodes.MacroCall m
  | .MacroDef m => BodyNodes.MacroDef m
  | .PlugCall p => BodyNodes.PlugCall p
  | .Content => BodyNodes.Content

/-- Modelled from the spec: the nodes of a parsed file's body. -/
inductive TopNodes where
  | HtmlTag (t : HtmlTag)
  | MacroCall (m : Macro)
  | PlugCall (p : PlugCall)
  | Content

/-- Modelled from the spec: the terminal owned artifact — tokens, optional
path, body, and the macro/lambda/variable tables (spec section 3). -/
structure ParsedFile where
  tokens : List Token
  path : Option String
  body : List TopNodes
  defined_macros : List Macro
  defined_lambdas : List Lambda
  defined_variables : List Variable

/-- Modelled from the spec: `ParsedFile::new` — owned tokens and path,
empty body and tables. -/
def ParsedFile.new (ts : List Token) (path : Option String) : ParsedFile :=
  ⟨ts, path, [], [], [], []⟩

/-- Modelled from the spec: the downstream subtag merge step is explicitly
outside this core and its policy an open question (spec section 9); no
claim depends on it, so it is modelled as the identity. -/
def HtmlTag.merge_subtags (t : HtmlTag) : HtmlTag := t

/-- `binary_func` of `parser.rs`: the words `and` / `or`. -/
def binary_func : Parser BinFunc :=
  fun st =>
    match literal st with
    | .ok (v, ns) =>
      if v = ("and") then .ok (BinFunc.And, ns)
      else if v = ("or") then .ok (BinFunc.Or, ns)
      else .error (ParseError.state_at .ExpectedBinFunc st)
    | .error _ => .error (ParseError.state_at .ExpectedBinFunc st)

/-- `unary_func` of `parser.rs`: the word `not`. -/
def unary_func : Parser UniFunc :=
  fun st =>
    match literal st with
    | .ok (v, ns) =>
      if v = ("not") then .ok (UniFunc.Not, ns)
      else .error (ParseError.state_at .ExpectedUniFunc st)
    | .error _ => .error (ParseError.state_at .ExpectedUniFunc st)

/-- `content_macro` of `parser.rs`: the word `content` followed by `!`. -/
def content_macro : Parser Unit :=
  fun st =>
    match followed_by (specific_literal ("content")) (after_spaces macro_mark) st with
    | .ok (_, ns) => .ok ((), ns)
    | .error e => .error e

/-- The string-building step shared by the default match arms of `quoted`
and `string` in `parser.rs`: append the token's text to the last literal
part, or start a new literal part. -/
def pushTok (output : List StringParts) (tok : Token) : List StringParts :=
  match output.getLast? with
  | some (StringParts.String s) =>
    output.dropLast ++ [StringParts.String (tok.push_to_string s)]
  | some (StringParts.Expression _) =>
    output ++ [StringParts.String tok.get_as_string]
  | none => [StringParts.String tok.get_as_string]

mutual

/-- `expression` of `parser.rs`: a variable reference, a quoted literal, or
a brace-wrapped expression. -/
def expression (fuel : Nat) : Parser Expression :=
  match fuel with
  | 0 => fun st => outOfFuel st
  | n + 1 =>
    or (or (map variable_name (fun x => Expression.Variable x))
           (map (fun st => quoted n st) Expression.Literal))
       (fun st => wrapped_expr n st)

/-- `binary_func_expr` of `parser.rs`: ranged expression, binary function
name, then (under `cut`) a second ranged expression. -/
def binary_func_expr (fuel : Nat) : Parser Expression :=
  match fuel with
  | 0 => fun st => outOfFuel st
  | n + 1 => fun st =>
    match (and_also (and_also (get_range (fun s => expression n s))
                              (after_spaces binary_func))
                    (cut (after_spaces (get_range (fun s => expression n s))))) st with
    | .ok (((e1, f), e2), ns) => .ok (Expression.BinFunc f e1 e2, ns)
    | .error e => .error e

/-- `unary_func_expr` of `parser.rs`. -/
def unary_func_expr (fuel : Nat) : Parser Expression :=
  match fuel with
  | 0 => fun st => outOfFuel st
  | n + 1 => fun st =>
    match (and_also unary_func (cut (after_spaces (get_range (fun s => expression n s))))) st with
    | .ok ((f, e1), ns) => .ok (Expression.UniFunc f e1, ns)
    | .error e => .error e

/-- `wrapped_expr` of `parser.rs`: `{ ... }` around a binary / unary /
plain expression or the `!` sentinel, committed after the opening brace. -/
def wrapped_expr (fuel : Nat) : Parser Expression :=
  match fuel with
  | 0 => fun st => outOfFuel st
  | n + 1 =>
    preceding expr_opener
      (followed_by
        (cut (after_spaces
          (or (or (or (fun st => binary_func_expr n st)
                      (fun st => unary_func_expr n st))
                  (fun st => expression n st))
              (map (character '!') (fun _ => Expression.None)))))
        expr_closer)

/-- The scanning loop of `quoted` in `parser.rs`, with its `escape` flag and
accumulated output (faithful to the source: no branch ever resets the
`escape` flag once set). -/
def quotedAux (fuel : Nat) (opener : Char) (escape : Bool)
    (output : List StringParts) : Parser (List StringParts) :=
  match fuel with
  | 0 => fun st => outOfFuel st
  | n + 1 => fun st =>
    match st.first_token with
    | none => .error ((ParseError.state_at .UnclosedQuote st).cut)
    | some tok =>
      match tok with
      | Token.Symbol sym =>
        if sym = '@' ∧ escape = false then
          match get_range (fun s => expression n s) st.next_state with
          | .ok (val, ns) =>
            quotedAux n opener escape (output ++ [StringParts.Expression val]) ns
          | .error e => .error e
        else if sym = opener ∧ escape = false then
          .ok (output, st.next_state)
        else if sym = '\\' ∧ escape = false then
          quotedAux n opener true output st.next_state
        else
          quotedAux n opener escape (pushTok output tok) st.next_state
      | Token.Newline _ => .error (ParseError.state_at .NewlineInQuote st)
      | tok => quotedAux n opener escape (pushTok output tok) st.next_state

/-- `quoted` of `parser.rs`: a quote mark, then the scanning loop. -/
def quoted (fuel : Nat) : Parser (List StringParts) :=
  match fuel with
  | 0 => fun st => outOfFuel st
  | n + 1 => fun st =>
    match quote_mark st with
    | .ok (opener, ns) => quotedAux n opener false [] ns
    | .error e => .error e

/-- The scanning loop of `string` in `parser.rs`, with its `escape` and
`in_newline` flags (faithful to the source: neither flag is ever reset
once set). -/
def stringAux (fuel : Nat) (escape : Bool) (in_newline : Bool)
    (output : List StringParts) : Parser (List StringParts) :=
  match fuel with
  | 0 => fun st => outOfFuel st
  | n + 1 => fun st =>
    match st.first_token with
    | none => .error ((ParseError.state_at .EndlessString st).cut)
    | some tok =>
      match tok with
      | Token.Symbol sym =>
        if sym = '@' ∧ escape = false then
          match get_range (fun s => expression n s) st.next_state with
          | .ok (val, ns) =>
            stringAux n escape in_newline (output ++ [StringParts.Expression val]) ns
          | .error e => .error e
        else if sym = '<' ∧ escape = false then
          if output.isEmpty then .error (ParseError.state_at .EmptyString st)
          else .ok (output, st)
        else if sym = '>' ∧ escape = false then
          if output.isEmpty then .error (ParseError.state_at .EmptyString st)
          else .ok (output, st)
        else if sym = '\\' ∧ escape = false then
          stringAux n true in_newline output st.next_state
        else
          stringAux n escape in_newline (pushTok output tok) st.next_state
      | Token.Newline _ => stringAux n escape true output st.next_state
      | Token.Space _ =>
        if in_newline = true ∧ escape = false then
          stringAux n escape in_newline output st.next_state
        else
          stringAux n escape in_newline (pushTok output tok) st.next_state
      | Token.Indent _ =>
        if in_newline = true ∧ escape = false then
          stringAux n escape in_newline output st.next_state
        else
          stringAux n escape in_newline (pushTok output tok) st.next_state
      | tok => stringAux n escape in_newline (pushTok output tok) st.next_state

/-- `string` of `parser.rs`: free-form body text. -/
def string (fuel : Nat) : Parser (List StringParts) :=
  match fuel with
  | 0 => fun st => outOfFuel st
  | n + 1 => fun st => stringAux n false false [] st

/-- `variable_definition` of `parser.rs`: `let name = "value"`. -/
def variable_definition (fuel : Nat) : Parser Variable :=
  match fuel with
  | 0 => fun st => outOfFuel st
  | n + 1 => fun st =>
    match (and_also (preceding var_def_starter (after_spaces literal))
                    (cut (preceding (after_spaces equals)
                                    (after_spaces (fun s => quoted n s))))) st with
    | .ok ((name, value), ns) => .ok (⟨name, value⟩, ns)
    | .error e => .error e

/-- `lambda_definition` of `parser.rs`: `lambda name` with optional
`= "value"`. -/
def lambda_definition (fuel : Nat) : Parser Lambda :=
  match fuel with
  | 0 => fun st => outOfFuel st
  | n + 1 => fun st =>
    match (preceding lambda_def_starter
            (and_maybe (cut (after_spaces literal))
                       (preceding (after_spaces equals)
                                  (after_spaces (fun s => quoted n s))))) st with
    | .ok ((name, value), ns) => .ok (⟨name, value⟩, ns)
    | .error e => .error e

/-- `attribute` of `parser.rs` (the Rust name is a Lean keyword): name,
then (under `cut`) `=` and a quoted value. -/
def attributeP (fuel : Nat) : Parser Attribute :=
  match fuel with
  | 0 => fun st => outOfFuel st
  | n + 1 => fun st =>
    match (and_also (followed_by (get_range literal) skip_spaces)
                    (cut (preceding equals
                           (preceding (zero_or_more (or space indent))
                                      (fun s => quoted n s))))) st with
    | .ok ((name, value), ns) => .ok (⟨name, value⟩, ns)
    | .error e => .error e

/-- `argument` of `parser.rs`: name with an optional `= "value"` tail. -/
def argument (fuel : Nat) : Parser Argument :=
  match fuel with
  | 0 => fun st => outOfFuel st
  | n + 1 => fun st =>
    match (and_maybe (followed_by (get_range literal) (zero_or_more (or space indent)))
                     (preceding equals
                       (preceding (zero_or_more (or space indent))
                                  (fun s => quoted n s)))) st with
    | .ok ((name, value), ns) => .ok (⟨name, value⟩, ns)
    | .error e => .error e

/-- `subtag` of `parser.rs`: `+name` plus attributes. -/
def subtag (fuel : Nat) : Parser HtmlTag :=
  match fuel with
  | 0 => fun st => outOfFuel st
  | n + 1 => fun st =>
    match (preceding subtag_opener
            (and_also (cut (after_spaces (get_range literal)))
                      (zero_or_more (preceding skip_spaces (fun s => attributeP n s))))) st with
    | .ok ((name, attrs), ns) => .ok (HtmlTag.mk name attrs [] [], ns)
    | .error e => .error e

/-- `tag_head` of `parser.rs`: a non-`macro` name asserted by lookahead to
be followed by a delimiter, then (under `cut`) attributes and subtags. -/
def tag_head (fuel : Nat) : Parser (Ranged String × List Attribute × List HtmlTag) :=
  match fuel with
  | 0 => fun st => outOfFuel st
  | n + 1 => fun st =>
    match (and_also
            (and_also
              (followed_by (get_range non_macro_starter)
                (peek (or (or (or (or (or space indent) body_opener) tag_closer)
                              tag_opener)
                          subtag_opener)))
              (cut (zero_or_more (after_spaces (fun s => attributeP n s)))))
            (zero_or_more (after_spaces (fun s => subtag n s)))) st with
    | .ok (((name, attrs), subtags), ns) => .ok ((name, attrs, subtags), ns)
    | .error e => .error e

/-- `macro_call_head` of `parser.rs`: a name followed by `!`, then (under
`cut`) space-separated arguments. -/
def macro_call_head (fuel : Nat) : Parser (Ranged String × List Argument) :=
  match fuel with
  | 0 => fun st => outOfFuel st
  | n + 1 =>
    and_also (followed_by (get_range macro_name) macro_mark)
             (cut (zero_or_more (preceding skip_spaces (fun s => argument n s))))

/-- `macro_def_head` of `parser.rs`: the keyword `macro`, then (under `cut`)
a name and arguments. -/
def macro_def_head (fuel : Nat) : Parser (Ranged String × List Argument) :=
  match fuel with
  | 0 => fun st => outOfFuel st
  | n + 1 =>
    preceding (after_spaces macro_starter)
      (and_also (cut (after_spaces (get_range literal)))
                (zero_or_more (after_spaces (fun s => argument n s))))

/-- `tag` of `parser.rs`: head plus optional body. -/
def tag (fuel : Nat) : Parser HtmlTag :=
  match fuel with
  | 0 => fun st => outOfFuel st
  | n + 1 => fun st =>
    match (and_maybe (fun s => tag_head n s) (fun s => tag_body n s)) st with
    | .ok (((name, attrs, subtags), body), ns) =>
      .ok (HtmlTag.mk name attrs subtags (body.getD []), ns)
    | .error e => .error e

/-- `tag_body` of `parser.rs`: a body opener, then repeated free text or
child tags. -/
def tag_body (fuel : Nat) : Parser (List HtmlNodes) :=
  match fuel with
  | 0 => fun st => outOfFuel st
  | n + 1 =>
    preceding (preceding (preceding skip_spaces body_opener) skipped_blanks)
      (zero_or_more
        (or (map (preceding skip_newline_blanks (fun s => string n s)) HtmlNodes.String)
            (preceding skipped_blanks
              (map (fun s => some_child_tag n s) BodyTags.into))))

/-- `some_child_tag` of `parser.rs`: `<` then (under `cut`) a child-tag
alternative and the closing `>`. -/
def some_child_tag (fuel : Nat) : Parser BodyTags :=
  match fuel with
  | 0 => fun st => outOfFuel st
  | n + 1 =>
    preceding (character '<')
      (cut (after_spaces
        (followed_by
          (or (or (map (fun s => tag n s) BodyTags.HtmlTag)
                  (map (fun s => macro_call n s) BodyTags.MacroCall))
              (map content_macro (fun _ => BodyTags.Content)))
          (preceding skipped_blanks tag_closer))))

/-- `macro_call` of `parser.rs`: a call head, empty body. -/
def macro_call (fuel : Nat) : Parser Macro :=
  match fuel with
  | 0 => fun st => outOfFuel st
  | n + 1 => fun st =>
    match (fun s => macro_call_head n s) st with
    | .ok ((name, args), ns) => .ok (Macro.mk name args [], ns)
    | .error e => .error e

/-- `macro_def` of `parser.rs`: a definition head plus optional body. -/
def macro_def (fuel : Nat) : Parser Macro :=
  match fuel with
  | 0 => fun st => outOfFuel st
  | n + 1 => fun st =>
    match (and_maybe (fun s => macro_def_head n s) (fun s => tag_body n s)) st with
    | .ok (((name, args), body), ns) => .ok (Macro.mk name args (body.getD []), ns)
    | .error e => .error e

end

/-- The verbatim-capture loop of `plugin_head` in `parser.rs` (faithful to
the source: the `escape` flag is never reset once set; termination on an
unescaped `>` or `|`, or on a newline). -/
def pluginHeadAux (fuel : Nat) (name : Ranged String) (start : TokenPos)
    (tokens : List Token) (escape : Bool) :
    Parser (Ranged String × Ranged (List Token)) :=
  match fuel with
  | 0 => fun st => outOfFuel st
  | n + 1 => fun st =>
    match st.first_token with
    | none => .error ((ParseError.state_at .EndlessString st).cut)
    | some tok =>
      match tok with
      | Token.Symbol sym =>
        if sym = '\\' ∧ escape = false then
          pluginHeadAux n name start tokens true st.next_state
        else if escape = false ∧ (sym = '>' ∨ sym = '|') then
          .ok ((name, ⟨tokens, (start, st.position)⟩), st)
        else
          pluginHeadAux n name start (tokens ++ [tok]) escape st.next_state
      | Token.Newline _ => .ok ((name, ⟨tokens, (start, st.position)⟩), st)
      | tok => pluginHeadAux n name start (tokens ++ [tok]) escape st.next_state

/-- `plugin_head` of `parser.rs`: `name?` then verbatim capture of the
inline argument tokens. -/
def plugin_head : Parser (Ranged String × Ranged (List Token)) :=
  fun st =>
    match (followed_by (followed_by (get_range non_macro_starter) plugin_mark)
                       skip_spaces) st with
    | .ok (name, ns) => pluginHeadAux (ns.tokens.length + 1) name ns.position [] false ns
    | .error e => .error e

/-- The verbatim-capture loop of `plugin_body` in `parser.rs` (faithful to
the source: the `escape` flag is never reset once set, and only an
unescaped `>` terminates — newlines are captured). -/
def pluginBodyAux (fuel : Nat) (start : TokenPos) (tokens : List Token)
    (escape : Bool) : Parser (Ranged (List Token)) :=
  match fuel with
  | 0 => fun st => outOfFuel st
  | n + 1 => fun st =>
    match st.first_token with
    | none => .error ((ParseError.state_at .EndlessString st).cut)
    | some tok =>
      match tok with
      | Token.Symbol sym =>
        if sym = '\\' ∧ escape = false then
          pluginBodyAux n start tokens true st.next_state
        else if escape = false ∧ sym = '>' then
          .ok (⟨tokens, (start, st.position)⟩, st)
        else
          pluginBodyAux n start (tokens ++ [tok]) escape st.next_state
      | tok => pluginBodyAux n start (tokens ++ [tok]) escape st.next_state

/-- `plugin_body` of `parser.rs`: a body opener then verbatim capture of
the body tokens. -/
def plugin_body : Parser (Ranged (List Token)) :=
  fun st =>
    match (followed_by (preceding skip_spaces body_opener) skipped_blanks) st with
    | .ok (_, ns) => pluginBodyAux (ns.tokens.length + 1) ns.position [] false ns
    | .error e => .error e

/-- `plug_call` of `parser.rs`: head plus optional body. -/
def plug_call : Parser PlugCall :=
  fun st =>
    match (and_maybe plugin_head plugin_body) st with
    | .ok (((name, args), body), ns) => .ok (⟨name, args, body⟩, ns)
    | .error e => .error e

/-- `some_tag` of `parser.rs`: `<` then (under `cut`) one of the tag
alternatives and the closing `>`. -/
def some_tag (fuel : Nat) : Parser Tag :=
  match fuel with
  | 0 => fun st => outOfFuel st
  | n + 1 =>
    preceding tag_opener
      (cut (after_spaces
        (followed_by
          (or (or (or (or (map (tag n) Tag.HtmlTag)
                          (map (macro_call n) Tag.MacroCall))
                      (map (macro_def n) Tag.MacroDef))
                  (map plug_call Tag.PlugCall))
              (map content_macro (fun _ => Tag.Content)))
          (preceding skipped_blanks tag_closer))))

/-- The bucketing step of `file` in `parser.rs`: classify each top-level
node into the body or one of the tables.  (The `BodyNodes::String` arm is
`todo!` in the source and unreachable from the top-level grammar; it is
modelled as a no-op.) -/
def fileBucket (out : ParsedFile) (node : BodyNodes) : ParsedFile :=
  match node with
  | .HtmlTag t => { out with body := out.body ++ [TopNodes.HtmlTag t.merge_subtags] }
  | .MacroDef m => { out with defined_macros := out.defined_macros ++ [m] }
  | .MacroCall m => { out with body := out.body ++ [TopNodes.MacroCall m] }
  | .String _ => out
  | .LambdaDef l => { out with defined_lambdas := out.defined_lambdas ++ [l] }
  | .VarDef v => { out with defined_variables := out.defined_variables ++ [v] }
  | .PlugCall p => { out with body := out.body ++ [TopNodes.PlugCall p] }
  | .Content => { out with body := out.body ++ [TopNodes.Content] }

/-- `file` of `parser.rs`: run the top-level grammar from position zero; on
failure return the error together with the original token sequence; on
success bucket the nodes into a `ParsedFile`. -/
def file (fuel : Nat) (tokens : List Token) (path : Option String) :
    Except (Err × List Token) ParsedFile :=
  match (zero_or_more
          (preceding skipped_blanks
            (or (or (map (some_tag fuel) Tag.into)
                    (map (lambda_definition fuel) BodyNodes.LambdaDef))
                (map (variable_definition fuel) BodyNodes.VarDef))))
        (ParserState.new tokens) with
  | .ok (ast_nodes, _) => .ok (ast_nodes.foldl fileBucket (ParsedFile.new tokens path))
  | .error err => .error (err, tokens)

/-! Auxiliary definitions used by the theorems below. -/

/-- Whether a token is skipped by `skipped_blanks` (a space, indent or
newline token). -/
def Token.isBlank : Token → Bool
  | .Space _ => true
  | .Indent _ => true
  | .Newline _ => true
  | _ => false

/-- The token list and position reached by skipping the leading blank
tokens (the cursor produced by a successful `skipped_blanks` run). -/
def dropBlanksList : List Token → TokenPos → List Token × TokenPos
  | [], p => ([], p)
  | t :: rest, p => if t.isBlank then dropBlanksList rest (p.advance t) else (t :: rest, p)

/-- The severity of a parse outcome: `some true` for a committed `Failure`,
`some false` for a recoverable `Error`, `none` for success. -/
def errSeverity {T : Type} : ParserResult T → Option Bool
  | .error (Err.Failure _) => some true
  | .error (Err.Error _) => some false
  | .ok _ => none

/-- The name of the macro-call node produced by a parse, if any. -/
def macroCallName : ParserResult Tag → Option String
  | .ok (Tag.MacroCall m, _) => some m.name.value
  | _ => none

/-- The argument names and values of the macro-call node produced by a
parse, if any. -/
def macroCallArgs : ParserResult Tag → Option (List (String × Option (List StringParts)))
  | .ok (Tag.MacroCall m, _) => some (m.arguments.map (fun a => (a.name.value, a.value)))
  | _ => none

/-- A concrete error state, used by witnesses below. -/
def eSt0 : ErrorState ParseError := .mk .NotSymbol [] ⟨0, 0, 0⟩ ⟨0, 0, 0⟩

/-- A parser that always fails with a committed `Failure`. -/
def failP : Parser Nat := fun _ => .error (Err.Failure eSt0)

/-- A parser that always fails with a recoverable `Error`. -/
def errP : Parser Nat := fun _ => .error (Err.Error eSt0)

/-- A parser that always succeeds without consuming. -/
def okP : Parser Nat := fun st => .ok (7, st)

/-- The token sequence of `macro! greet name="World"` inside a tag
(`<` `macro` `!` ` ` `greet` ` ` `name` `=` `"` `World` `"` `>`). -/
def c9toks : List Token :=
  [Token.Symbol '<', Token.Word ("macro"), Token.Symbol '!', Token.Space ' ',
   Token.Word ("greet"), Token.Space ' ', Token.Word ("name"), Token.Symbol '=',
   Token.Symbol '"', Token.Word ("World"), Token.Symbol '"', Token.Symbol '>']

/-! Theorems. -/

/-- C1: for all parsers `a` and `b` and every cursor `s`: if `a` fails with
`Failure`, `or(a, b)` returns that `Failure` (the result does not depend on
`b`, so `b` is never applied); if `a` fails with a recoverable `Error`,
`or(a, b)` is exactly `b` applied to the original cursor `s`. -/
theorem c1_or_commit_and_backtrack {T : Type} (a b : Parser T) (s : ParserState) :
    (∀ e, a s = .error (Err.Failure e) → or a b s = .error (Err.Failure e)) ∧
    (∀ e, a s = .error (Err.Error e) → or a b s = b s) := by
  constructor
  · intro e h
    simp [or, h]
  · intro e h
    simp [or, h]

/-- Witness for C1 at concrete parsers and cursor. -/
theorem c1_witness :
    or failP okP (ParserState.new []) = .error (Err.Failure eSt0) ∧
    or errP okP (ParserState.new []) = okP (ParserState.new []) :=
  ⟨(c1_or_commit_and_backtrack failP okP (ParserState.new [])).1 eSt0 rfl,
   (c1_or_commit_and_backtrack errP okP (ParserState.new [])).2 eSt0 rfl⟩

/-- C3: for every parser `p` and cursor `s`, `cut(p)` returns `p`'s result
unchanged on success and on `Failure`, and re-wraps a recoverable `Error`
as a `Failure` carrying the identical error state. -/
theorem c3_cut_promotes_error_only {T : Type} (p : Parser T) (s : ParserState) :
    (∀ v ns, p s = .ok (v, ns) → cut p s = .ok (v, ns)) ∧
    (∀ e, p s = .error (Err.Failure e) → cut p s = .error (Err.Failure e)) ∧
    (∀ e, p s = .error (Err.Error e) → cut p s = .error (Err.Failure e)) := by
  refine ⟨?_, ?_, ?_⟩
  · intro v ns h
    simp [cut, h]
  · intro e h
    simp [cut, h]
  · intro e h
    simp [cut, h]

/-- Witness for C3 at concrete parsers and cursor. -/
theorem c3_witness :
    cut okP (ParserState.new []) = .ok (7, ParserState.new []) ∧
    cut failP (ParserState.new []) = .error (Err.Failure eSt0) ∧
    cut errP (ParserState.new []) = .error (Err.Failure eSt0) :=
  ⟨(c3_cut_promotes_error_only okP (ParserState.new [])).1 7 (ParserState.new []) rfl,
   (c3_cut_promotes_error_only failP (ParserState.new [])).2.1 eSt0 rfl,
   (c3_cut_promotes_error_only errP (ParserState.new [])).2.2 eSt0 rfl⟩

/-- C4, counterexample: a parser whose only attempt fails with a committed
`Failure` does not succeed even once, yet `zero_or_more` of it returns an
error rather than the empty list with the original cursor — the claim as
stated ("never returns an error") is false. -/
theorem c4_counterexample :
    failP (ParserState.new []) = .error (Err.Failure eSt0) ∧
    zero_or_more failP (ParserState.new []) = .error (Err.Failure eSt0) ∧
    (Except.error (Err.Failure eSt0) : ParserResult (List Nat)) ≠
      .ok ([], ParserState.new []) := by
  refine ⟨rfl, rfl, ?_⟩
  simp

/-- C4, amended: if the first attempt of `p` on `s` fails with a
recoverable `Error`, `zero_or_more p` returns the empty list together with
the original cursor `s` unchanged; if it fails with a committed `Failure`,
that `Failure` is propagated. -/
theorem c4_zero_or_more_amended {T : Type} (p : Parser T) (s : ParserState)
    (e : ErrorState ParseError) :
    (p s = .error (Err.Error e) → zero_or_more p s = .ok ([], s)) ∧
    (p s = .error (Err.Failure e) → zero_or_more p s = .error (Err.Failure e)) := by
  constructor
  · intro h
    simp [zero_or_more, zomAux, h]
  · intro h
    simp [zero_or_more, zomAux, h]

/-- Witness for C4's amended claim at a concrete parser and cursor. -/
theorem c4_witness :
    errP (ParserState.new []) = .error (Err.Error eSt0) ∧
    zero_or_more errP (ParserState.new []) = .ok ([], ParserState.new []) :=
  ⟨rfl, (c4_zero_or_more_amended errP (ParserState.new []) eSt0).1 rfl⟩

/-- C5: evaluation of the code at the failing input `"a\bc…"` — on the
tokens of `"a\b"` the scanning loop of `quoted` never resets its `escape`
flag after the backslash, so the closing quote mark two tokens later is
treated as escaped and the parse runs to end-of-input, failing with
`UnclosedQuote`; the claim (and the spec) say the backslash escapes only
the single following character, so the closing quote should terminate the
string with value `ab`. -/
theorem c5_quoted_escape_never_reset :
    quoted 10 (ParserState.new
      [Token.Symbol '"', Token.Word ("a"), Token.Symbol '\\',
       Token.Word ("b"), Token.Symbol '"']) =
      .error (Err.Failure (.mk .UnclosedQuote [] ⟨0, 5, 5⟩ ⟨0, 5, 5⟩)) := rfl

/-- C6, counterexample: parsing a quoted value whose second token is a raw
newline yields a recoverable `Error` (severity `some false`), not the
committed `Failure` the claim requires. -/
theorem c6_counterexample :
    errSeverity (quoted 10 (ParserState.new
      [Token.Symbol '"', Token.Newline '\n'])) = some false := rfl

/-- C6, amended: whenever the scanning loop of `quoted` reaches a raw
newline token before the closing quote mark — whatever the escape flag and
the output accumulated so far — it fails with a *recoverable* `Error` of
kind `NewlineInQuote` at that position, never a committed `Failure`, so a
sibling alternative in an enclosing choice can swallow it.  (A quoted
value containing a raw newline can still fail with a committed `Failure`
for a different reason: a malformed embedded `@`-expression is promoted by
`wrapped_expr`'s `cut` before the newline is ever reached.)  The second
conjunct instantiates this for `quoted` itself with the newline directly
after the opening quote mark. -/
theorem c6_newline_in_quote_recoverable :
    (∀ (fuel : Nat) (opener : Char) (escape : Bool) (output : List StringParts)
       (c : Char) (rest : List Token) (pos : TokenPos)
       (errs : List (ErrorState ParseError)),
      quotedAux (fuel + 1) opener escape output ⟨Token.Newline c :: rest, pos, errs⟩ =
        .error (Err.Error (.mk .NewlineInQuote errs pos pos))) ∧
    (∀ (n : Nat) (c : Char) (rest : List Token) (pos : TokenPos)
       (errs : List (ErrorState ParseError)),
      quoted (n + 2) ⟨Token.Symbol '"' :: Token.Newline c :: rest, pos, errs⟩ =
        .error (Err.Error (.mk .NewlineInQuote errs
          (pos.advance (Token.Symbol '"')) (pos.advance (Token.Symbol '"'))))) :=
  ⟨fun _ _ _ _ _ _ _ _ => rfl, fun _ _ _ _ _ => rfl⟩

/-- C7: evaluation of the code at the failing input — a plugin body whose
tokens are ` a \> b > c`.  The claim (and the spec's test) say the capture
ends at the unescaped `>` before ` c` with the escaped `>` preserved as
text; the code's capture loop never resets its `escape` flag after the
backslash (and a body capture only ever checks `>`, not `|` or newline),
so no later `>` terminates it and it runs to end-of-input, failing with a
committed `EndlessString`. -/
theorem c7_plugin_body_escape_never_terminates :
    plugin_body (ParserState.new
      [Token.Symbol '|', Token.Space ' ', Token.Word ("a"), Token.Space ' ',
       Token.Symbol '\\', Token.Symbol '>', Token.Space ' ', Token.Word ("b"),
       Token.Space ' ', Token.Symbol '>', Token.Space ' ', Token.Word ("c")]) =
      .error (Err.Failure (.mk .EndlessString [] ⟨0, 12, 12⟩ ⟨0, 12, 12⟩)) := rfl

/-- C8: evaluation of the code at the failing input `a⏎b c<` — the space
between `b` and `c` follows the non-whitespace token `b` on the same line,
so by the claim it must be kept; the code's `in_newline` flag is set at the
first newline and never reset, so that space is stripped and the text
parses to `abc` instead of `ab c`. -/
theorem c8_string_strips_after_first_newline :
    string 10 (ParserState.new
      [Token.Word ("a"), Token.Newline '\n', Token.Word ("b"),
       Token.Space ' ', Token.Word ("c"), Token.Symbol '<']) =
      .ok ([StringParts.String ("abc")],
           ⟨[Token.Symbol '<'], ⟨1, 3, 5⟩, []⟩) := rfl

/-- C9, counterexample: on the tokens of `<macro! greet name="World">` the
parser produces a macro-call node whose name is `macro`, not `greet`. -/
theorem c9_counterexample :
    macroCallName (some_tag 30 (ParserState.new c9toks)) = some ("macro") ∧
    ("macro" : String) ≠ ("greet") := ⟨rfl, by decide⟩

/-- C9, amended: on the tokens of `macro! greet name="World"` after a tag
opener, the parser produces a macro-call node whose name is `macro` (the
call syntax is `name!`, so the word `macro` itself is taken as the name)
and whose argument list has two entries: `greet` with no value, and `name`
with the quoted value `World`. -/
theorem c9_macro_bang_is_call_named_macro :
    macroCallName (some_tag 30 (ParserState.new c9toks)) = some ("macro") ∧
    macroCallArgs (some_tag 30 (ParserState.new c9toks)) =
      some [(("greet"), none), (("name"), some [StringParts.String ("World")])] :=
  ⟨rfl, rfl⟩

/-- C2: whenever the top-level `file` parse fails, the error branch returns
the original token sequence unchanged — same list, hence same length and
the same tokens in the same order. -/
theorem c2_file_failure_preserves_tokens (fuel : Nat) (tokens : List Token)
    (path : Option String) (e : Err) (ts : List Token)
    (h : file fuel tokens path = .error (e, ts)) : ts = tokens := by
  unfold file at h
  split at h
  · simp at h
  · simp only [Except.error.injEq, Prod.mk.injEq] at h
    exact h.2.symm

/-- Witness for C2 at a concrete failing parse. -/
theorem c2_witness :
    file 1 [Token.Symbol '<'] none =
      .error (Err.Failure (.mk .ReachedEOF [] ⟨0, 1, 1⟩ ⟨0, 1, 1⟩), [Token.Symbol '<']) ∧
    ([Token.Symbol '<'] : List Token) = [Token.Symbol '<'] :=
  ⟨rfl,
   c2_file_failure_preserves_tokens 1 [Token.Symbol '<'] none
     (Err.Failure (.mk .ReachedEOF [] ⟨0, 1, 1⟩ ⟨0, 1, 1⟩)) [Token.Symbol '<'] rfl⟩

/-! Helper lemmas for C10. -/

/-- If the first parser of `or` fails recoverably, the choice is the second
parser on the original cursor. -/
theorem or_error_second {T : Type} (p1 p2 : Parser T) (st : ParserState)
    (e : ErrorState ParseError) (h : p1 st = .error (Err.Error e)) :
    or p1 p2 st = p2 st := by
  simp [or, h]

/-- `map` passes errors through unchanged. -/
theorem map_error {T1 T2 : Type} (p : Parser T1) (f : T1 → T2) (st : ParserState)
    (e : Err) (h : p st = .error e) : map p f st = .error e := by
  simp [map, h]

/-- `preceding` runs its second parser on the cursor its first produced. -/
theorem preceding_ok_then {O1 O2 : Type} (p1 : Parser O1) (p2 : Parser O2)
    (st : ParserState) (v : O1) (ns : ParserState) (h : p1 st = .ok (v, ns)) :
    preceding p1 p2 st = p2 ns := by
  simp [preceding, h]

/-- `preceding` passes its first parser's error through. -/
theorem preceding_error {O1 O2 : Type} (p1 : Parser O1) (p2 : Parser O2)
    (st : ParserState) (e : Err) (h : p1 st = .error e) :
    preceding p1 p2 st = .error e := by
  simp [preceding, h]

/-- A blank head token is consumed by the element parser of
`skipped_blanks`. -/
theorem blank_parser_ok (t : Token) (rest : List Token) (pos : TokenPos)
    (errs : List (ErrorState ParseError)) (hb : t.isBlank = true) :
    ∃ c, or (or space indent) newline ⟨t :: rest, pos, errs⟩ =
      .ok (c, ⟨rest, pos.advance t, errs⟩) := by
  cases t with
  | Space c => exact ⟨c, rfl⟩
  | Indent c => exact ⟨c, rfl⟩
  | Newline c => exact ⟨c, rfl⟩
  | Word s => simp [Token.isBlank] at hb
  | Symbol c => simp [Token.isBlank] at hb

/-- A non-blank head (or end-of-input) makes the element parser of
`skipped_blanks` fail recoverably. -/
theorem blank_parser_error (ts : List Token) (pos : TokenPos)
    (errs : List (ErrorState ParseError))
    (h : ∀ t, ts.head? = some t → t.isBlank = false) :
    ∃ e, or (or space indent) newline ⟨ts, pos, errs⟩ = .error (Err.Error e) := by
  cases ts with
  | nil => exact ⟨_, rfl⟩
  | cons t rest =>
    have ht := h t rfl
    cases t with
    | Word s => exact ⟨_, rfl⟩
    | Symbol c => exact ⟨_, rfl⟩
    | Space c => simp [Token.isBlank] at ht
    | Indent c => simp [Token.isBlank] at ht
    | Newline c => simp [Token.isBlank] at ht

/-- The loop of `skipped_blanks` consumes exactly the blank prefix. -/
theorem zomAux_blanks (ts : List Token) : ∀ (pos : TokenPos)
    (errs : List (ErrorState ParseError)) (fuel : Nat), ts.length < fuel →
    ∃ v, zomAux (or (or space indent) newline) fuel ⟨ts, pos, errs⟩ =
      .ok (v, ⟨(dropBlanksList ts pos).1, (dropBlanksList ts pos).2, errs⟩) := by
  induction ts with
  | nil =>
    intro pos errs fuel hf
    match fuel, hf with
    | n + 1, _ => exact ⟨[], rfl⟩
  | cons t rest ih =>
    intro pos errs fuel hf
    match fuel, hf with
    | n + 1, hf =>
      by_cases hb : t.isBlank
      · obtain ⟨c, hc⟩ := blank_parser_ok t rest pos errs hb
        have hr : rest.length < n := by
          simp only [List.length_cons] at hf
          omega
        obtain ⟨v, hv⟩ := ih (pos.advance t) errs n hr
        refine ⟨c :: v, ?_⟩
        simp only [zomAux, hc, hv, dropBlanksList, hb, if_true]
      · have hna : ∀ t', (t :: rest).head? = some t' → t'.isBlank = false := by
          intro t' ht'
          simp only [List.head?_cons, Option.some.injEq] at ht'
          rw [← ht']
          exact Bool.eq_false_iff.mpr hb
        obtain ⟨e, he⟩ := blank_parser_error (t :: rest) pos errs hna
        refine ⟨[], ?_⟩
        simp [zomAux, he, dropBlanksList, hb]

/-- `skipped_blanks` always succeeds and leaves the cursor at the first
non-blank token. -/
theorem skipped_blanks_ok (ts : List Token) (pos : TokenPos)
    (errs : List (ErrorState ParseError)) :
    ∃ v, skipped_blanks ⟨ts, pos, errs⟩ =
      .ok (v, ⟨(dropBlanksList ts pos).1, (dropBlanksList ts pos).2, errs⟩) := by
  have h := zomAux_blanks ts pos errs (ts.length + 1) (by omega)
  simpa [skipped_blanks, zero_or_more] using h

/-- When the head token is not `<`, `tag_opener` fails recoverably with
`ExpectedTagOpener` at the current position. -/
theorem tag_opener_error (ts : List Token) (pos : TokenPos)
    (errs : List (ErrorState ParseError))
    (h : ∀ c, ts.head? = some (Token.Symbol c) → c ≠ '<') :
    tag_opener ⟨ts, pos, errs⟩ =
      .error (Err.Error (.mk .ExpectedTagOpener errs pos pos)) := by
  cases ts with
  | nil => rfl
  | cons t rest =>
    cases t with
    | Symbol c =>
      have hc : ¬(c = '<') := h c rfl
      simp [tag_opener, character, some_symbol, ParserState.advanced, hc,
            ParseError.state_at]
    | Word s => rfl
    | Space c => rfl
    | Indent c => rfl
    | Newline c => rfl

/-- When the head token is not `<`, `some_tag` fails recoverably before its
`cut`. -/
theorem some_tag_error (n : Nat) (ts : List Token) (pos : TokenPos)
    (errs : List (ErrorState ParseError))
    (h : ∀ c, ts.head? = some (Token.Symbol c) → c ≠ '<') :
    some_tag (n + 1) ⟨ts, pos, errs⟩ =
      .error (Err.Error (.mk .ExpectedTagOpener errs pos pos)) := by
  have h1 := tag_opener_error ts pos errs h
  simp only [some_tag]
  exact preceding_error _ _ _ _ h1

/-- When the head token is not the word `lambda`, `lambda_definition` fails
recoverably with `NotLiteral` at the current position. -/
theorem lambda_definition_error (n : Nat) (ts : List Token) (pos : TokenPos)
    (errs : List (ErrorState ParseError))
    (h : ∀ s, ts.head? = some (Token.Word s) → s ≠ ("lambda")) :
    lambda_definition (n + 1) ⟨ts, pos, errs⟩ =
      .error (Err.Error (.mk .NotLiteral errs pos pos)) := by
  have h1 : lambda_def_starter ⟨ts, pos, errs⟩ =
      .error (Err.Error (.mk .NotLiteral errs pos pos)) := by
    cases ts with
    | nil => rfl
    | cons t rest =>
      cases t with
      | Word s =>
        have hs : ¬(s = ("lambda")) := h s rfl
        simp [lambda_def_starter, ParserState.advanced, hs, ParseError.state_at]
      | Symbol c => rfl
      | Space c => rfl
      | Indent c => rfl
      | Newline c => rfl
  simp only [lambda_definition]
  rw [preceding_error _ _ _ _ h1]

/-- When the head token is not the word `let`, `variable_definition` fails
recoverably with `NotLiteral` at the current position. -/
theorem variable_definition_error (n : Nat) (ts : List Token) (pos : TokenPos)
    (errs : List (ErrorState ParseError))
    (h : ∀ s, ts.head? = some (Token.Word s) → s ≠ ("let")) :
    variable_definition (n + 1) ⟨ts, pos, errs⟩ =
      .error (Err.Error (.mk .NotLiteral errs pos pos)) := by
  have h1 : var_def_starter ⟨ts, pos, errs⟩ =
      .error (Err.Error (.mk .NotLiteral errs pos pos)) := by
    cases ts with
    | nil => rfl
    | cons t rest =>
      cases t with
      | Word s =>
        have hs : ¬(s = ("let")) := h s rfl
        simp [var_def_starter, ParserState.advanced, hs, ParseError.state_at]
      | Symbol c => rfl
      | Space c => rfl
      | Indent c => rfl
      | Newline c => rfl
  have h2 : preceding var_def_starter (after_spaces literal) ⟨ts, pos, errs⟩ =
      .error (Err.Error (.mk .NotLiteral errs pos pos)) :=
    preceding_error _ _ _ _ h1
  simp only [variable_definition]
  simp [and_also, h2]

/-- When the head token starts none of the three top-level alternatives,
the whole top-level choice of `file` fails recoverably. -/
theorem top_choice_error (n : Nat) (ts : List Token) (pos : TokenPos)
    (errs : List (ErrorState ParseError))
    (hlt : ∀ c, ts.head? = some (Token.Symbol c) → c ≠ '<')
    (hlam : ∀ s, ts.head? = some (Token.Word s) → s ≠ ("lambda"))
    (hlet : ∀ s, ts.head? = some (Token.Word s) → s ≠ ("let")) :
    (or (or (map (some_tag (n + 1)) Tag.into)
            (map (lambda_definition (n + 1)) BodyNodes.LambdaDef))
        (map (variable_definition (n + 1)) BodyNodes.VarDef)) ⟨ts, pos, errs⟩ =
      .error (Err.Error (.mk .NotLiteral errs pos pos)) := by
  have h1 := map_error _ Tag.into _ _ (some_tag_error n ts pos errs hlt)
  have h2 := map_error _ BodyNodes.LambdaDef _ _ (lambda_definition_error n ts pos errs hlam)
  have h3 := map_error _ BodyNodes.VarDef _ _ (variable_definition_error n ts pos errs hlet)
  have hA : or (map (some_tag (n + 1)) Tag.into)
               (map (lambda_definition (n + 1)) BodyNodes.LambdaDef) ⟨ts, pos, errs⟩ =
      .error (Err.Error (.mk .NotLiteral errs pos pos)) := by
    rw [or_error_second _ _ _ _ h1]
    exact h2
  rw [or_error_second _ _ _ _ hA]
  exact h3

/-- The blank-skipping cursor's token list is the `dropWhile` of the token
list. -/
theorem dropBlanksList_fst (ts : List Token) : ∀ pos : TokenPos,
    (dropBlanksList ts pos).1 = ts.dropWhile Token.isBlank := by
  induction ts with
  | nil => intro pos; rfl
  | cons t rest ih =>
    intro pos
    by_cases hb : t.isBlank <;>
      simp [dropBlanksList, List.dropWhile, hb, ih]

/-- C10: the top-level `file` parse succeeds without consuming the whole
token sequence: for every token sequence whose first non-blank token is
neither a tag opener `<` nor the word `lambda` nor the word `let`, `file`
returns `Ok` with an empty body and empty macro/lambda/variable tables —
all tokens after the first recoverable mismatch are absent from the
result. -/
theorem c10_file_ok_empty_on_nonstarter (fuel : Nat) (ts : List Token)
    (path : Option String) (t : Token)
    (hf : 0 < fuel)
    (hh : (ts.dropWhile Token.isBlank).head? = some t)
    (h1 : t ≠ Token.Symbol '<')
    (h2 : t ≠ Token.Word ("lambda"))
    (h3 : t ≠ Token.Word ("let")) :
    file fuel ts path = .ok ⟨ts, path, [], [], [], []⟩ := by
  obtain ⟨n, rfl⟩ : ∃ n, fuel = n + 1 := ⟨fuel - 1, by omega⟩
  obtain ⟨v, hsb⟩ := skipped_blanks_ok ts ⟨0, 0, 0⟩ []
  have hdh : (dropBlanksList ts ⟨0, 0, 0⟩).1.head? = some t := by
    rw [dropBlanksList_fst]
    exact hh
  have hlt : ∀ c, (dropBlanksList ts ⟨0, 0, 0⟩).1.head? = some (Token.Symbol c) →
      c ≠ '<' := by
    intro c hc he
    rw [hdh] at hc
    injection hc with ht
    exact h1 (by rw [ht, he])
  have hlam : ∀ s, (dropBlanksList ts ⟨0, 0, 0⟩).1.head? = some (Token.Word s) →
      s ≠ ("lambda") := by
    intro s hc he
    rw [hdh] at hc
    injection hc with ht
    exact h2 (by rw [ht, he])
  have hlet : ∀ s, (dropBlanksList ts ⟨0, 0, 0⟩).1.head? = some (Token.Word s) →
      s ≠ ("let") := by
    intro s hc he
    rw [hdh] at hc
    injection hc with ht
    exact h3 (by rw [ht, he])
  have hchoice := top_choice_error n (dropBlanksList ts ⟨0, 0, 0⟩).1
    (dropBlanksList ts ⟨0, 0, 0⟩).2 [] hlt hlam hlet
  have hattempt : (preceding skipped_blanks
      (or (or (map (some_tag (n + 1)) Tag.into)
              (map (lambda_definition (n + 1)) BodyNodes.LambdaDef))
          (map (variable_definition (n + 1)) BodyNodes.VarDef)))
      ⟨ts, ⟨0, 0, 0⟩, []⟩ =
      .error (Err.Error (.mk .NotLiteral []
        (dropBlanksList ts ⟨0, 0, 0⟩).2 (dropBlanksList ts ⟨0, 0, 0⟩).2)) := by
    rw [preceding_ok_then _ _ _ _ _ hsb]
    exact hchoice
  simp only [file, zero_or_more, ParserState.new, zomAux, hattempt]
  rfl

/-- Witness for C10 at a concrete token sequence. -/
theorem c10_witness :
    (0 < 1) ∧
    file 1 [Token.Word ("hello"), Token.Symbol '>'] none =
      .ok ⟨[Token.Word ("hello"), Token.Symbol '>'], none, [], [], [], []⟩ :=
  ⟨by decide,
   c10_file_ok_empty_on_nonstarter 1 [Token.Word ("hello"), Token.Symbol '>'] none
     (Token.Word ("hello")) (by decide) (by decide) (by decide) (by decide) (by decide)⟩

end Kismesis
